import Mathlib

/-!
Verification development for the dfp-atp-server instrument-control bridge
(`src/routes/ethernetRoutes.js`).  The command/reply correlator
`sendCommandOnceOnSocket`, the `tcpBusy` single-flight gate, the HTTP route
handlers that use them, and the speed-test harness (`rtt` and `throughput`
modes) are shallowly embedded below.  Socket activity is modelled as a trace
of timestamped events in arrival order; wall-clock time is an explicit
millisecond counter; JS strings are modelled as `List Char`.
-/

namespace DfpAtp

/-- JS string contents, modelled as a list of characters so that every
operation the routes perform on buffers reduces in the kernel. -/
abbrev JStr := List Char

/-- Byte length of a string under UTF-8, i.e. `Buffer.byteLength(s, 'utf8')`:
the sum of the UTF-8 encoding sizes of its characters. -/
def utf8Len (s : JStr) : Nat :=
  (s.map fun c =>
    if c.toNat ≤ 0x7F then 1
    else if c.toNat ≤ 0x7FF then 2
    else if c.toNat ≤ 0xFFFF then 3
    else 4).sum

/-- JS `String.prototype.trim`: strip whitespace from both ends (ASCII
whitespace; the further Unicode space characters JS also strips do not occur
in instrument replies). -/
def jsTrim (s : JStr) : JStr :=
  ((s.dropWhile Char.isWhitespace).reverse.dropWhile Char.isWhitespace).reverse

/-- Result object resolved by `sendCommandOnceOnSocket` (ethernetRoutes.js
lines 37-112): `raw` is the trimmed buffer, `rtt_ms` is `some t` for a
numeric `rtt_ms` and `none` for JS `null` (the timeout path), `bytes` is
`Buffer.byteLength(buffer, 'utf8')`, `timeout` is the truthiness of the
`timeout` field, and `error` is `some msg` when the `error` field is set. -/
structure CmdResult where
  raw : JStr
  rtt_ms : Option Nat
  bytes : Nat
  timeout : Bool
  error : Option JStr
deriving Repr, DecidableEq

/-- Socket-level events a pending correlation call can observe, in arrival
order: a `data` chunk, the socket `error` event, the socket `close` event,
the per-command timer firing, and the write callback reporting a failure. -/
inductive SockEv where
  | data (chunk : JStr)
  | sockError (msg : JStr)
  | close
  | timerFire
  | writeErr (msg : JStr)
deriving Repr, DecidableEq

/-- Per-call state of `sendCommandOnceOnSocket`: the accumulated text
buffer, the `finished` flag, and the resolved value (`none` while the
promise is still pending). -/
structure CallState where
  buffer : JStr
  finished : Bool
  result : Option CmdResult
deriving Repr, DecidableEq

/-- Initial per-call state: empty buffer, not finished, unresolved. -/
def initCall : CallState := ⟨[], false, none⟩

/-- One event dispatch of `sendCommandOnceOnSocket`.  Once `finished` is set,
`cleanup` has removed all listeners and cleared the timer, so every later
event is ignored; this is modelled by `step` being the identity on finished
states.  `onData` appends the chunk and resolves on the first line terminator
in the buffer; `onError`/`onClose` and the write-failure callback resolve
with an `error` message and a numeric rtt; the timer resolves with
`timeout: true` and `rtt_ms: null`.  The event's first component is the
elapsed time `Date.now() - start` at dispatch. -/
def step (st : CallState) (ev : Nat × SockEv) : CallState :=
  if st.finished then st
  else
    match ev.2 with
    | .data chunk =>
        let buf := st.buffer ++ chunk
        if buf.contains '\n' then
          ⟨buf, true, some ⟨jsTrim buf, some ev.1, utf8Len buf, false, none⟩⟩
        else
          ⟨buf, false, none⟩
    | .sockError msg =>
        ⟨st.buffer, true,
          some ⟨jsTrim st.buffer, some ev.1, utf8Len st.buffer, false, some msg⟩⟩
    | .close =>
        ⟨st.buffer, true,
          some ⟨jsTrim st.buffer, some ev.1, utf8Len st.buffer, false,
                some "socket closed".toList⟩⟩
    | .timerFire =>
        ⟨st.buffer, true,
          some ⟨jsTrim st.buffer, none, utf8Len st.buffer, true, none⟩⟩
    | .writeErr msg =>
        ⟨st.buffer, true,
          some ⟨jsTrim st.buffer, some ev.1, utf8Len st.buffer, false, some msg⟩⟩

/-- Run one correlation call against a trace of timestamped socket events in
arrival order. -/
def runCall (trace : List (Nat × SockEv)) : CallState :=
  trace.foldl step initCall

/-- Promise value of `sendCommandOnceOnSocket` after the trace: `none` means
the promise is still pending. -/
def sendCommandOnceOnSocket (trace : List (Nat × SockEv)) : Option CmdResult :=
  (runCall trace).result

/-- Connection handle as the routes see it: only whether the socket has been
destroyed matters (`tcpClient.destroyed`). -/
structure Conn where
  destroyed : Bool
deriving Repr, DecidableEq

/-- Correlation at the connection level.  `sendCommandOnceOnSocket`
(ethernetRoutes.js lines 37-112) never calls `destroy`, `end` or any other
lifecycle method on the socket — its comment says "does not destroy socket
on timeout" — so the connection handle is returned unchanged. -/
def correlate (conn : Conn) (trace : List (Nat × SockEv)) :
    Option CmdResult × Conn :=
  (sendCommandOnceOnSocket trace, conn)

/-- Trace consisting only of incoming data chunks, each with its arrival
time: the shape of a call during which the socket neither errors nor
closes. -/
def dataTrace (chunks : List (Nat × JStr)) : List (Nat × SockEv) :=
  chunks.map fun p => (p.1, .data p.2)

/-- One element of the `results` array built by the speedtest `rtt` mode:
either a per-iteration record (`{ i, raw, rtt_ms, bytes, timeout, error }`,
ethernetRoutes.js lines 283-290) or the abort note object pushed at line
294. -/
inductive Entry where
  | iter (i : Nat) (raw : JStr) (rtt_ms : Option Nat) (bytes : Nat)
      (timeout : Bool) (error : Option JStr)
  | note (msg : JStr)
deriving Repr, DecidableEq

/-- JS read of `x.timeout` coerced by `!x.timeout`: the note object has no
`timeout` field, and `undefined` is falsy. -/
def Entry.timeoutF : Entry → Bool
  | .iter _ _ _ _ t _ => t
  | .note _ => false

/-- JS read of `x.rtt_ms`: `some` exactly when `typeof x.rtt_ms ===
'number'`; the note object has no `rtt_ms` field. -/
def Entry.rttF : Entry → Option Nat
  | .iter _ _ r _ _ _ => r
  | .note _ => none

/-- JS read of `x.bytes || 0`: the note object contributes 0. -/
def Entry.bytesF : Entry → Nat
  | .iter _ _ _ b _ _ => b
  | .note _ => 0

/-- JS `r.error || null`: an empty error string is falsy and becomes
`null`. -/
def errOrNull : Option JStr → Option JStr
  | none => none
  | some s => if s = [] then none else some s

/-- Per-iteration record pushed by the `rtt` loop for 0-based iteration `i`
(the record's index field is `i + 1`). -/
def mkEntry (i : Nat) (r : CmdResult) : Entry :=
  .iter (i + 1) r.raw r.rtt_ms r.bytes r.timeout (errOrNull r.error)

/-- Text of the abort note pushed when `consecutiveTimeouts` reaches the
configured maximum. -/
def abortNote (n : Nat) : JStr :=
  ("Aborted after " ++ toString n ++ " consecutive timeouts.").toList

/-- The speedtest `rtt` loop (ethernetRoutes.js lines 281-300).  `oracle i`
is the `CmdResult` the `i`-th correlation resolves with, `rem` the number of
iterations left (`count - i`), `consec` the running count of consecutive
timeouts.  Each iteration pushes its record, bumps or resets `consec`, and
on reaching `maxCT` pushes the abort note and breaks. -/
def rttLoop (oracle : Nat → CmdResult) (maxCT : Nat) :
    Nat → Nat → Nat → List Entry
  | _, 0, _ => []
  | i, rem + 1, consec =>
      let r := oracle i
      let e := mkEntry i r
      let consec2 := if r.timeout then consec + 1 else 0
      if maxCT ≤ consec2 then [e, .note (abortNote consec2)]
      else e :: rttLoop oracle maxCT (i + 1) rem consec2

/-- Complete `rtt`-mode results array for a requested `count`. -/
def rttRun (oracle : Nat → CmdResult) (count maxCT : Nat) : List Entry :=
  rttLoop oracle maxCT 0 count 0

/-- The success filter of the `rtt` stats (line 303):
`!x.timeout && typeof x.rtt_ms === 'number'`. -/
def isSuccess (e : Entry) : Bool := !e.timeoutF && e.rttF.isSome

/-- The `successes` array (line 303). -/
def successesOf (results : List Entry) : List Entry := results.filter isSuccess

/-- Round-trip times of the success entries, as read by the stats
reducers. -/
def rttValsOf (results : List Entry) : List Nat :=
  (successesOf results).map fun e => e.rttF.getD 0

/-- The `avg` statistic (line 304): mean rtt over successes, `null` when
there are none. -/
def avgOf (results : List Entry) : Option ℚ :=
  if (successesOf results).isEmpty then none
  else some (((rttValsOf results).sum : ℚ) / ((successesOf results).length : ℚ))

/-- The `min` statistic (line 305): `Math.min` over success rtts. -/
def minOf (results : List Entry) : Option Nat :=
  match rttValsOf results with
  | [] => none
  | v :: vs => some (vs.foldl Nat.min v)

/-- The `max` statistic (line 306): `Math.max` over success rtts. -/
def maxOf (results : List Entry) : Option Nat :=
  match rttValsOf results with
  | [] => none
  | v :: vs => some (vs.foldl Nat.max v)

/-- The `totalBytes` statistic (line 307): `x.bytes || 0` summed over every
element of `results`, note objects and timed-out records included. -/
def totalBytesOf (results : List Entry) : Nat :=
  (results.map Entry.bytesF).sum

/-- The `opsPerSec` statistic (line 308): `avg ? (1000 / avg) : null` — JS
truthiness makes both `null` and `0` produce `null`. -/
def opsPerSecOf (results : List Entry) : Option ℚ :=
  match avgOf results with
  | none => none
  | some a => if a = 0 then none else some (1000 / a)

/-- Response payload of the `throughput` mode (ethernetRoutes.js lines
350-360), excluding the echoed configuration fields. -/
structure TpResult where
  queriesSent : Nat
  total_bytes : Nat
  megabytes : ℚ
  durationMeasuredSec : ℚ
  mb_per_s : ℚ
  ops_per_sec : ℚ
  note : JStr
deriving Repr, DecidableEq

/-- The fixed informational `note` string of the throughput response (line
359); it is a constant, independent of how the run ended. -/
def tpFixedNote : JStr :=
  "Each iteration waits for the instrument response (safe for SCPI instruments).".toList

/-- Throughput statistics (lines 341-360): after the loop a fixed 120 ms
grace pause elapses before the clock is read, so the measured elapsed time
is `finalNow + 120`; `seconds = Math.max(0.001, elapsedMs / 1000)`;
`megabytes = totalBytes / (1024*1024)`; rates divide by `seconds`. -/
def tpStats (queries bytes : Nat) (finalNow : ℚ) : TpResult :=
  let elapsedMs : ℚ := finalNow + 120
  let seconds : ℚ := max (1 / 1000) (elapsedMs / 1000)
  let megabytes : ℚ := (bytes : ℚ) / (1024 * 1024)
  ⟨queries, bytes, megabytes, seconds, megabytes / seconds,
   (queries : ℚ) / seconds, tpFixedNote⟩

/-- The `throughput` loop (lines 327-338).  `oracle q` is the result of the
`q`-th correlation and `dur q` the wall-clock milliseconds that iteration
consumes (correlation wait plus the inter-iteration delay); `now` is the
clock relative to `startTime`; the loop runs while `now < endAt`, adds
`r.bytes || 0`, counts the query, and breaks once `consec` reaches `maxCT` —
recording no note.  `fuel` bounds the number of iterations so the function
terminates; a real run always terminates because wall time advances, and
`none` marks a run that would still be in flight after `fuel` iterations. -/
def tpLoop (oracle : Nat → CmdResult) (dur : Nat → ℚ) (endAt : ℚ)
    (maxCT : Nat) : Nat → ℚ → Nat → Nat → Nat → Option (Nat × Nat × ℚ)
  | 0, now, q, bytes, _ =>
      if now < endAt then none else some (q, bytes, now)
  | fuel + 1, now, q, bytes, consec =>
      if now < endAt then
        let r := oracle q
        let consec2 := if r.timeout then consec + 1 else 0
        if maxCT ≤ consec2 then some (q + 1, bytes + r.bytes, now + dur q)
        else tpLoop oracle dur endAt maxCT fuel (now + dur q) (q + 1)
          (bytes + r.bytes) consec2
      else some (q, bytes, now)

/-- Complete throughput run: the loop starts at clock 0 with
`endAt = durationSec * 1000`, then the statistics are computed. -/
def tpRun (oracle : Nat → CmdResult) (dur : Nat → ℚ) (durationSec : ℚ)
    (maxCT fuel : Nat) : Option TpResult :=
  match tpLoop oracle dur (durationSec * 1000) maxCT fuel 0 0 0 0 with
  | none => none
  | some (q, b, fin) => some (tpStats q b fin)

/-- JSON body values as the speedtest route can receive them.  `num` ranges
over the finite JS numbers (modelled as rationals); `nan` is the JS `NaN`
(non-finite values are collapsed into it); strings and booleans arrive from
JSON bodies unchanged; `undef` is an absent field, `jnull` JSON `null`. -/
inductive JVal where
  | undef
  | jnull
  | num (q : ℚ)
  | nan
  | str (s : JStr)
  | jbool (b : Bool)
deriving DecidableEq

/-- JS truthiness of a body value. -/
def JVal.truthy : JVal → Bool
  | .undef => false
  | .jnull => false
  | .num q => decide (q ≠ 0)
  | .nan => false
  | .str s => !s.isEmpty
  | .jbool b => b

/-- JS `Number.isFinite(v)` without coercion: `some q` exactly when `v` is a
finite number. -/
def isFiniteNum : JVal → Option ℚ
  | .num q => some q
  | _ => none

/-- Numeric value of a digit string read most-significant first. -/
def digitsToNat (ds : JStr) : Nat :=
  ds.foldl (fun n c => 10 * n + (c.toNat - '0'.toNat)) 0

/-- JS `parseInt(s, 10)` on a string: trim, optional sign, then the longest
leading run of decimal digits; `NaN` (here `none`) when that run is
empty. -/
def jsParseIntStr (s : JStr) : Option Int :=
  let t := jsTrim s
  let pick : Int × JStr :=
    match t with
    | '-' :: r => (-1, r)
    | '+' :: r => (1, r)
    | _ => (1, t)
  let ds := pick.2.takeWhile Char.isDigit
  if ds.isEmpty then none else some (pick.1 * (digitsToNat ds : Int))

/-- JS `parseInt(v, 10)`: the value is stringified first, so a finite number
is truncated toward zero (its decimal rendering is parsed back), a string is
parsed by `jsParseIntStr`, and `undefined`/`null`/booleans/`NaN` stringify
to non-numeric text, giving `NaN`. -/
def jsParseInt : JVal → Option Int
  | .num q => some (q.num.tdiv (q.den : Int))
  | .str s => jsParseIntStr s
  | _ => none

/-- Exponent suffix of the JS decimal-number grammar: empty input means
exponent 0; otherwise `e`/`E`, an optional sign and at least one digit, with
nothing left over; anything else makes the whole parse `NaN`. -/
def parseExpPart (rest : JStr) : Option Int :=
  match rest with
  | [] => some 0
  | 'e' :: r =>
      let pick : Int × JStr :=
        match r with
        | '-' :: rr => (-1, rr)
        | '+' :: rr => (1, rr)
        | _ => (1, r)
      let ds := pick.2.takeWhile Char.isDigit
      let r2 := pick.2.dropWhile Char.isDigit
      if ds.isEmpty || !r2.isEmpty then none
      else some (pick.1 * (digitsToNat ds : Int))
  | 'E' :: r =>
      let pick : Int × JStr :=
        match r with
        | '-' :: rr => (-1, rr)
        | '+' :: rr => (1, rr)
        | _ => (1, r)
      let ds := pick.2.takeWhile Char.isDigit
      let r2 := pick.2.dropWhile Char.isDigit
      if ds.isEmpty || !r2.isEmpty then none
      else some (pick.1 * (digitsToNat ds : Int))
  | _ => none

/-- Parsed shape of a decimal JS number literal: sign, integer part,
fraction digits with their count, and exponent. -/
structure DecParse where
  neg : Bool
  ip : Nat
  fp : Nat
  fpLen : Nat
  exp : Int
deriving Repr, DecidableEq

/-- Numeric value of a parsed decimal literal. -/
def DecParse.val (p : DecParse) : ℚ :=
  (if p.neg then -1 else 1) *
    ((p.ip : ℚ) + (p.fp : ℚ) / (10 : ℚ) ^ p.fpLen) * (10 : ℚ) ^ p.exp

/-- Structural part of JS `Number(s)` on a string, for the decimal grammar
the instrument replies use: trimmed-empty is 0; otherwise an optional sign,
decimal digits with an optional fraction, and an optional exponent must
consume the whole string.  (The hex/octal/binary literal forms and the
literal text `Infinity`, which no SCPI reply produces, are not modelled;
they fall into `none` together with every other non-numeric string.) -/
def jsNumberParse (s : JStr) : Option DecParse :=
  let t := jsTrim s
  if t.isEmpty then some ⟨false, 0, 0, 0, 0⟩
  else
    let pick : Bool × JStr :=
      match t with
      | '-' :: r => (true, r)
      | '+' :: r => (false, r)
      | _ => (false, t)
    let ip := pick.2.takeWhile Char.isDigit
    let r1 := pick.2.dropWhile Char.isDigit
    match r1 with
    | '.' :: r2 =>
        let fp := r2.takeWhile Char.isDigit
        let r3 := r2.dropWhile Char.isDigit
        if ip.isEmpty && fp.isEmpty then none
        else
          match parseExpPart r3 with
          | none => none
          | some e =>
              some ⟨pick.1, digitsToNat ip, digitsToNat fp, fp.length, e⟩
    | _ =>
        if ip.isEmpty then none
        else
          match parseExpPart r1 with
          | none => none
          | some e => some ⟨pick.1, digitsToNat ip, 0, 0, e⟩

/-- JS `Number(s)` on a string (`none` = `NaN`): the value of the parsed
decimal literal. -/
def jsNumberStr (s : JStr) : Option ℚ :=
  (jsNumberParse s).map DecParse.val

/-- JS `Number(v)` coercion on body values (`none` = `NaN`). -/
def jsNumber : JVal → Option ℚ
  | .undef => none
  | .jnull => some 0
  | .num q => some q
  | .nan => none
  | .str s => jsNumberStr s
  | .jbool b => some (if b then 1 else 0)

/-- Effective `perCmdTimeoutMs` (line 272):
`Number.isFinite(body.perCmdTimeoutMs) ? Math.max(100, v) : 3000`. -/
def effPerCmdTimeout (v : JVal) : ℚ :=
  match isFiniteNum v with
  | some q => max 100 q
  | none => 3000

/-- Effective `minDelayMs` (line 271):
`Number.isFinite(body.minDelayMs) ? Math.max(0, v) : 10`. -/
def effMinDelay (v : JVal) : ℚ :=
  match isFiniteNum v with
  | some q => max 0 q
  | none => 10

/-- Effective `maxConsecutiveTimeouts` (line 273):
`Number.isFinite(v) ? Math.max(1, v) : 5`. -/
def effMaxCT (v : JVal) : ℚ :=
  match isFiniteNum v with
  | some q => max 1 q
  | none => 5

/-- Effective `count` for the `rtt` mode (line 277):
`Math.max(1, parseInt(body.count || 10, 10))`; `none` is the `NaN` that
`parseInt` produces on non-numeric truthy input, which `Math.max`
propagates. -/
def effCount (v : JVal) : Option Int :=
  match jsParseInt (if v.truthy then v else .num 10) with
  | some n => some (max 1 n)
  | none => none

/-- Effective `durationSec` for the `throughput` mode (line 320):
`Math.max(1, Number(body.duration || 5))`; `none` is again a propagated
`NaN`. -/
def effDuration (v : JVal) : Option ℚ :=
  match jsNumber (if v.truthy then v else .num 5) with
  | some q => some (max 1 q)
  | none => none

/-- Number of iterations `for (let i = 0; i < count; ++i)` performs: zero
when `count` is `NaN` (every comparison with `NaN` is false). -/
def rttIterations : Option Int → Nat
  | some n => n.toNat
  | none => 0

/-- Module-level server state the routes share: whether `tcpClient` exists
and is not destroyed, and the `tcpBusy` single-flight gate. -/
structure SrvState where
  connected : Bool
  busy : Bool
deriving Repr, DecidableEq

/-- Route responses, identified up to the JSON fields the claims are about.
`pending` stands for a handler still awaiting an unresolved promise. -/
inductive HResp where
  | errNotConnected
  | errBusy
  | errTimeout
  | pending
  | sentOk (d : JStr)
  | sendReply (reply : JStr) (rtt : Option Nat) (bytes : Nat)
      (timeout : Bool) (error : Option JStr)
  | measureOk (typ : JStr) (raw : JStr) (value : ℚ ⊕ JStr)
      (rtt : Option Nat) (bytes : Nat)
  | stRtt (results : List Entry) (avg ops : Option ℚ)
      (minv maxv : Option Nat) (totalBytes : Nat)
  | stTp (r : TpResult)
deriving DecidableEq

/-- Value field of the measure endpoints (line 218):
`Number.isFinite(value) ? value : r.raw`. -/
def numOrRaw (s : JStr) : ℚ ⊕ JStr :=
  match jsNumberStr s with
  | some q => Sum.inl q
  | none => Sum.inr s

/-- The `POST /send` handler (ethernetRoutes.js lines 157-184) on the
reply-expecting and fire-and-forget paths.  It checks only that the client
is connected; it never reads or writes `tcpBusy`.  The fire-and-forget path
is modelled on its successful-write branch. -/
def sendHandler (st : SrvState) (expectResponse : Bool) (d : JStr)
    (trace : List (Nat × SockEv)) : HResp × SrvState :=
  if st.connected = false then (.errNotConnected, st)
  else if expectResponse = false then (.sentOk d, st)
  else
    match sendCommandOnceOnSocket trace with
    | none => (.pending, st)
    | some r =>
        (.sendReply r.raw r.rtt_ms r.bytes r.timeout (errOrNull r.error), st)

/-- The `GET /measure/volt` handler (lines 206-223): connected check, busy
check, `tcpBusy = true`, one correlation of `MEAS:VOLT?`, `tcpBusy = false`,
then 504 on timeout or the value/raw fallback response. -/
def measureVoltHandler (st : SrvState) (trace : List (Nat × SockEv)) :
    HResp × SrvState :=
  if st.connected = false then (.errNotConnected, st)
  else if st.busy then (.errBusy, st)
  else
    match sendCommandOnceOnSocket trace with
    | none => (.pending, ⟨st.connected, true⟩)
    | some r =>
        if r.timeout then (.errTimeout, ⟨st.connected, false⟩)
        else
          (.measureOk "volt".toList r.raw (numOrRaw r.raw) r.rtt_ms r.bytes,
           ⟨st.connected, false⟩)

/-- The `POST /speedtest` handler in `rtt` mode (lines 262-317): connected
check, busy check, `tcpBusy = true`, the iteration loop, statistics,
`tcpBusy = false`. -/
def speedtestRttHandler (st : SrvState) (oracle : Nat → CmdResult)
    (count maxCT : Nat) : HResp × SrvState :=
  if st.connected = false then (.errNotConnected, st)
  else if st.busy then (.errBusy, st)
  else
    let results := rttRun oracle count maxCT
    (.stRtt results (avgOf results) (opsPerSecOf results) (minOf results)
      (maxOf results) (totalBytesOf results), ⟨st.connected, false⟩)

/-- The `POST /speedtest` handler in `throughput` mode (lines 262-267 and
319-361): connected check, busy check, the time-boxed loop, statistics. -/
def speedtestTpHandler (st : SrvState) (oracle : Nat → CmdResult)
    (dur : Nat → ℚ) (durationSec : ℚ) (maxCT fuel : Nat) :
    HResp × SrvState :=
  if st.connected = false then (.errNotConnected, st)
  else if st.busy then (.errBusy, st)
  else
    match tpRun oracle dur durationSec maxCT fuel with
    | none => (.pending, ⟨st.connected, true⟩)
    | some r => (.stTp r, ⟨st.connected, false⟩)

/-- Wall-clock milliseconds consumed by iterations `q, q+1, …, q+j-1` of a
throughput loop whose iteration costs are given by `dur`. -/
def partialDur (dur : Nat → ℚ) (q j : Nat) : ℚ :=
  ((List.range j).map fun m => dur (q + m)).sum

section Examples

example : sendCommandOnceOnSocket [(5, .data "1.0\n".toList)] =
    some ⟨"1.0".toList, some 5, 4, false, none⟩ := by decide

example : sendCommandOnceOnSocket [(1, .data "1.".toList), (3000, .timerFire)] =
    some ⟨"1.".toList, none, 2, true, none⟩ := by decide

example : sendCommandOnceOnSocket [(7, .close), (9, .data "x\n".toList)] =
    some ⟨[], some 7, 0, false, some "socket closed".toList⟩ := by decide

example :
    rttRun (fun _ => ⟨"1.0".toList, none, 0, true, none⟩) 10 3 =
      [mkEntry 0 ⟨"1.0".toList, none, 0, true, none⟩,
       mkEntry 1 ⟨"1.0".toList, none, 0, true, none⟩,
       mkEntry 2 ⟨"1.0".toList, none, 0, true, none⟩,
       .note (abortNote 3)] := by decide

example :
    avgOf [mkEntry 0 ⟨"2".toList, some 4, 2, false, none⟩,
           mkEntry 1 ⟨"".toList, none, 1, true, none⟩,
           mkEntry 2 ⟨"2".toList, some 6, 2, false, none⟩] = some 5 := by
  norm_num [avgOf, successesOf, rttValsOf, isSuccess, mkEntry, errOrNull,
    Entry.timeoutF, Entry.rttF]

end Examples

/-- Once a call has finished, `cleanup` has deactivated every listener and
the timer, so any further event leaves the call state unchanged. -/
theorem step_of_finished (st : CallState) (ev : Nat × SockEv)
    (h : st.finished = true) : step st ev = st := by
  simp [step, h]

/-- A finished call state absorbs any further trace of events. -/
theorem foldl_step_of_finished (l : List (Nat × SockEv)) (st : CallState)
    (h : st.finished = true) : l.foldl step st = st := by
  induction l with
  | nil => rfl
  | cons ev rest ih => rw [List.foldl_cons, step_of_finished st ev h]; exact ih

/-- One event dispatch preserves the invariant that the `finished` flag is
set exactly when the promise has resolved. -/
theorem step_preserves_inv (st : CallState) (ev : Nat × SockEv)
    (h : st.finished = st.result.isSome) :
    (step st ev).finished = (step st ev).result.isSome := by
  rcases hf : st.finished with _ | _
  · rcases ev with ⟨t, e⟩
    cases e <;> simp [step, hf]
    split <;> simp
  · simp [step_of_finished st ev hf, h]

/-- Any run of a correlation call satisfies the finished/resolved
invariant. -/
theorem runCall_inv (trace : List (Nat × SockEv)) :
    (runCall trace).finished = (runCall trace).result.isSome := by
  suffices h : ∀ (l : List (Nat × SockEv)) (st : CallState),
      st.finished = st.result.isSome →
      (l.foldl step st).finished = (l.foldl step st).result.isSome by
    exact h trace initCall rfl
  intro l
  induction l with
  | nil => exact fun st h => h
  | cons ev rest ih =>
      intro st h
      rw [List.foldl_cons]
      exact ih (step st ev) (step_preserves_inv st ev h)

/-- C1: a correlation call resolves exactly once.  (i) The promise is
resolved exactly when the `finished` flag is set, i.e. exactly when some
terminal event (first line terminator in the buffer, timer firing, socket
error/close, write failure) has been dispatched.  (ii) After the call has
finished, any further events — including a later timer fire or terminator —
leave the whole call state, and hence the resolved value, unchanged: no
second resolution can occur.  (iii) Whichever terminal event occurs first
wins: if the call is unresolved after `pre` and the next event `ev`
finishes it, the final state of the whole trace is exactly the state
produced by `ev`, independent of every later event. -/
theorem sendCommandOnce_resolves_exactly_once :
    (∀ trace : List (Nat × SockEv),
        (runCall trace).finished = (runCall trace).result.isSome) ∧
    (∀ trace extra : List (Nat × SockEv), (runCall trace).finished = true →
        runCall (trace ++ extra) = runCall trace) ∧
    (∀ (pre : List (Nat × SockEv)) (ev : Nat × SockEv)
        (post : List (Nat × SockEv)),
        (runCall pre).finished = false →
        (step (runCall pre) ev).finished = true →
        runCall (pre ++ ev :: post) = step (runCall pre) ev) := by
  refine ⟨runCall_inv, ?_, ?_⟩
  · intro trace extra h
    rw [runCall, List.foldl_append]
    exact foldl_step_of_finished extra (runCall trace) h
  · intro pre ev post _ hfin
    rw [runCall, List.foldl_append, List.foldl_cons]
    exact foldl_step_of_finished post (step (runCall pre) ev) hfin

/-- Concrete instantiation of `sendCommandOnce_resolves_exactly_once`: a
call resolved by a terminator at 5 ms ignores a later timer fire, and a
call unresolved after a partial chunk is resolved by the next event. -/
theorem sendCommandOnce_resolves_exactly_once_witness :
    runCall ([(5, .data "1.0\n".toList)] ++ [(3000, .timerFire)]) =
      runCall [(5, .data "1.0\n".toList)] ∧
    runCall ([(1, .data "1.".toList)] ++ (3000, .timerFire) :: [(3001, .data "0\n".toList)]) =
      step (runCall [(1, .data "1.".toList)]) (3000, .timerFire) := by
  refine ⟨?_, ?_⟩
  · exact sendCommandOnce_resolves_exactly_once.2.1 _ _ (by decide)
  · exact sendCommandOnce_resolves_exactly_once.2.2 _ _ _ (by decide) (by decide)

/-- Running a call over data chunks whose concatenation contains no line
terminator accumulates the buffer and leaves the call unresolved. -/
theorem runCall_dataTrace (chunks : List (Nat × JStr))
    (h : '\n' ∉ (chunks.map Prod.snd).flatten) :
    runCall (dataTrace chunks) =
      ⟨(chunks.map Prod.snd).flatten, false, none⟩ := by
  suffices hgen : ∀ (cs : List (Nat × JStr)) (buf : JStr),
      '\n' ∉ buf ++ (cs.map Prod.snd).flatten →
      (dataTrace cs).foldl step ⟨buf, false, none⟩ =
        ⟨buf ++ (cs.map Prod.snd).flatten, false, none⟩ by
    have := hgen chunks []
    simp only [List.nil_append] at this
    exact this h
  intro cs
  induction cs with
  | nil => intro buf _; simp [dataTrace]
  | cons c rest ih =>
      intro buf hbuf
      simp only [List.map_cons, List.flatten_cons, ← List.append_assoc,
        List.mem_append, not_or] at hbuf
      have h1 : '\n' ∉ buf ++ c.2 := by
        simp only [List.mem_append, not_or]
        exact ⟨hbuf.1.1, hbuf.1.2⟩
      simp only [dataTrace, List.map_cons, List.foldl_cons]
      have hstep : step ⟨buf, false, none⟩ (c.1, .data c.2) =
          ⟨buf ++ c.2, false, none⟩ := by
        simp [step, h1]
      rw [hstep]
      have := ih (buf ++ c.2)
        (by simp only [List.mem_append, not_or]
            exact ⟨⟨hbuf.1.1, hbuf.1.2⟩, hbuf.2⟩)
      simpa [dataTrace, List.append_assoc] using this

/-- C2: when no line terminator arrives before the per-command timer fires,
the call resolves with `timeout: true`, `rtt_ms: null`, and `bytes` equal to
the UTF-8 byte length of the partial data buffered so far; the connection
handle is returned untouched (the correlator never destroys the socket), and
a subsequent correlation on the same connection handle still succeeds when a
terminated reply arrives. -/
theorem timeout_resolution_preserves_connection
    (chunks : List (Nat × JStr)) (t : Nat) (post : List (Nat × SockEv))
    (conn : Conn)
    (h : '\n' ∉ (chunks.map Prod.snd).flatten) :
    correlate conn (dataTrace chunks ++ (t, .timerFire) :: post) =
      (some ⟨jsTrim ((chunks.map Prod.snd).flatten), none,
             utf8Len ((chunks.map Prod.snd).flatten), true, none⟩, conn) ∧
    (∀ (t2 : Nat) (reply : JStr), '\n' ∈ reply →
      correlate conn [(t2, .data reply)] =
        (some ⟨jsTrim reply, some t2, utf8Len reply, false, none⟩, conn)) := by
  constructor
  · have hrun := runCall_dataTrace chunks h
    have hfin : (step (runCall (dataTrace chunks)) (t, .timerFire)).finished = true := by
      rw [hrun]; simp [step]
    have hfirst := sendCommandOnce_resolves_exactly_once.2.2
      (dataTrace chunks) (t, .timerFire) post (by rw [hrun]) hfin
    simp only [correlate, sendCommandOnceOnSocket, hfirst, hrun]
    simp [step]
  · intro t2 reply hreply
    simp [correlate, sendCommandOnceOnSocket, runCall, step, initCall, hreply]

/-- Concrete instantiation of `timeout_resolution_preserves_connection`:
two partial chunks "1" and "." arrive, the timer fires at 3000 ms, and a
stray later chunk is ignored; the same connection then completes a full
correlation. -/
theorem timeout_resolution_preserves_connection_witness :
    correlate ⟨false⟩
        (dataTrace [(1, "1".toList), (2, ".".toList)] ++ (3000, .timerFire) ::
          [(3001, .data "0\n".toList)]) =
      (some ⟨"1.".toList, none, 2, true, none⟩, ⟨false⟩) ∧
    correlate ⟨false⟩ [(4000, .data "1.0\n".toList)] =
      (some ⟨"1.0".toList, some 4000, 4, false, none⟩, ⟨false⟩) := by
  have h := timeout_resolution_preserves_connection
    [(1, "1".toList), (2, ".".toList)] 3000 [(3001, .data "0\n".toList)]
    ⟨false⟩ (by decide)
  exact ⟨h.1, h.2 4000 "1.0\n".toList (by decide)⟩

/-- An entry that is timed out, or has a non-numeric `rtt_ms`, is dropped by
the success filter. -/
theorem isSuccess_false_of (e : Entry)
    (h : e.timeoutF = true ∨ e.rttF = none) : isSuccess e = false := by
  rcases h with h | h <;> simp [isSuccess, h]

/-- Inserting a non-success entry anywhere in the results leaves the
`successes` array unchanged. -/
theorem successesOf_insert (l1 l2 : List Entry) (e : Entry)
    (h : isSuccess e = false) :
    successesOf (l1 ++ e :: l2) = successesOf (l1 ++ l2) := by
  simp [successesOf, List.filter_append, List.filter_cons, h]

/-- C5: the latency aggregates `avg_ms`, `min_ms` and `max_ms` are computed
only over iterations with `timeout = false` and a numeric `rtt_ms` —
inserting a timed-out (or rtt-less) record anywhere leaves all three
unchanged — while `total_bytes` sums the byte counts of all recorded
entries, so the same insertion grows it by the inserted record's bytes. -/
theorem rtt_stats_filter_timeouts (l1 l2 : List Entry) (e : Entry)
    (h : e.timeoutF = true ∨ e.rttF = none) :
    avgOf (l1 ++ e :: l2) = avgOf (l1 ++ l2) ∧
    minOf (l1 ++ e :: l2) = minOf (l1 ++ l2) ∧
    maxOf (l1 ++ e :: l2) = maxOf (l1 ++ l2) ∧
    totalBytesOf (l1 ++ e :: l2) = totalBytesOf (l1 ++ l2) + e.bytesF := by
  have hs := successesOf_insert l1 l2 e (isSuccess_false_of e h)
  refine ⟨?_, ?_, ?_, ?_⟩
  · simp [avgOf, rttValsOf, hs]
  · simp [minOf, rttValsOf, hs]
  · simp [maxOf, rttValsOf, hs]
  · simp only [totalBytesOf, List.map_append, List.map_cons, List.sum_append,
      List.sum_cons]
    omega

/-- Concrete instantiation of `rtt_stats_filter_timeouts`: inserting a
timed-out iteration with 7 buffered bytes between two successes changes no
latency aggregate and adds exactly 7 to `total_bytes`. -/
theorem rtt_stats_filter_timeouts_witness :
    avgOf ([mkEntry 0 ⟨"2".toList, some 4, 2, false, none⟩] ++
        mkEntry 1 ⟨"x".toList, none, 7, true, none⟩ ::
          [mkEntry 2 ⟨"2".toList, some 6, 2, false, none⟩]) =
      avgOf ([mkEntry 0 ⟨"2".toList, some 4, 2, false, none⟩] ++
        [mkEntry 2 ⟨"2".toList, some 6, 2, false, none⟩]) ∧
    minOf ([mkEntry 0 ⟨"2".toList, some 4, 2, false, none⟩] ++
        mkEntry 1 ⟨"x".toList, none, 7, true, none⟩ ::
          [mkEntry 2 ⟨"2".toList, some 6, 2, false, none⟩]) =
      minOf ([mkEntry 0 ⟨"2".toList, some 4, 2, false, none⟩] ++
        [mkEntry 2 ⟨"2".toList, some 6, 2, false, none⟩]) ∧
    maxOf ([mkEntry 0 ⟨"2".toList, some 4, 2, false, none⟩] ++
        mkEntry 1 ⟨"x".toList, none, 7, true, none⟩ ::
          [mkEntry 2 ⟨"2".toList, some 6, 2, false, none⟩]) =
      maxOf ([mkEntry 0 ⟨"2".toList, some 4, 2, false, none⟩] ++
        [mkEntry 2 ⟨"2".toList, some 6, 2, false, none⟩]) ∧
    totalBytesOf ([mkEntry 0 ⟨"2".toList, some 4, 2, false, none⟩] ++
        mkEntry 1 ⟨"x".toList, none, 7, true, none⟩ ::
          [mkEntry 2 ⟨"2".toList, some 6, 2, false, none⟩]) =
      totalBytesOf ([mkEntry 0 ⟨"2".toList, some 4, 2, false, none⟩] ++
        [mkEntry 2 ⟨"2".toList, some 6, 2, false, none⟩]) +
        (mkEntry 1 ⟨"x".toList, none, 7, true, none⟩).bytesF :=
  rtt_stats_filter_timeouts _ _ _ (Or.inl rfl)

/-- Counterexample to C6 as stated: with a single successful iteration whose
round trip took 0 ms, `avg` is defined and equals 0, yet `ops_per_sec` is
`null` — not `1000 / avg` — because line 308 tests `avg ?`, which is falsy
for 0. -/
theorem opsPerSec_zero_avg_counterexample :
    avgOf [mkEntry 0 ⟨"1.0".toList, some 0, 4, false, none⟩] = some 0 ∧
    opsPerSecOf [mkEntry 0 ⟨"1.0".toList, some 0, 4, false, none⟩] = none ∧
    (∀ q : ℚ,
      opsPerSecOf [mkEntry 0 ⟨"1.0".toList, some 0, 4, false, none⟩] ≠ some q) := by
  have havg : avgOf [mkEntry 0 ⟨"1.0".toList, some 0, 4, false, none⟩] = some 0 := by
    norm_num [avgOf, successesOf, rttValsOf, isSuccess, mkEntry, errOrNull,
      Entry.timeoutF, Entry.rttF]
  refine ⟨havg, ?_, ?_⟩
  · simp only [opsPerSecOf]
    rw [havg]
    norm_num
  · intro q
    simp only [opsPerSecOf]
    rw [havg]
    simp

/-- C6 amended: `ops_per_sec` equals `1000 / avg_ms` whenever `avg_ms` is
defined and nonzero, and is `null` both when `avg_ms` is `null` and when
`avg_ms = 0` (JS truthiness of `avg` collapses the zero case into
`null`). -/
theorem opsPerSec_characterization (results : List Entry) :
    (∀ a : ℚ, avgOf results = some a → a ≠ 0 →
        opsPerSecOf results = some (1000 / a)) ∧
    (avgOf results = none → opsPerSecOf results = none) ∧
    (avgOf results = some 0 → opsPerSecOf results = none) := by
  refine ⟨?_, ?_, ?_⟩
  · intro a ha hne
    simp [opsPerSecOf, ha, hne]
  · intro ha
    simp [opsPerSecOf, ha]
  · intro ha
    simp [opsPerSecOf, ha]

/-- Concrete instantiation of `opsPerSec_characterization`: a run whose only
success took 5 ms reports `ops_per_sec = 1000 / 5`. -/
theorem opsPerSec_characterization_witness :
    opsPerSecOf [mkEntry 0 ⟨"1.0".toList, some 5, 4, false, none⟩] =
      some (1000 / 5) := by
  have havg : avgOf [mkEntry 0 ⟨"1.0".toList, some 5, 4, false, none⟩] = some 5 := by
    norm_num [avgOf, successesOf, rttValsOf, isSuccess, mkEntry, errOrNull,
      Entry.timeoutF, Entry.rttF]
  exact (opsPerSec_characterization _).1 5 havg (by norm_num)

/-- Splitting off the first term of a range-indexed sum. -/
theorem mapRangeSum_succ {M : Type} [AddCommMonoid M] (f : Nat → M)
    (q j : Nat) :
    ((List.range (j + 1)).map fun m => f (q + m)).sum =
      f q + ((List.range j).map fun m => f (q + 1 + m)).sum := by
  rw [List.range_succ_eq_map]
  simp only [List.map_cons, List.sum_cons, List.map_map, Nat.add_zero]
  congr 1
  exact congrArg List.sum
    (List.map_congr_left fun m _ => congrArg f (by omega))

/-- The first iteration's cost splits off a `partialDur`. -/
theorem partialDur_succ (dur : Nat → ℚ) (q j : Nat) :
    partialDur dur q (j + 1) = dur q + partialDur dur (q + 1) j :=
  mapRangeSum_succ dur q j

/-- When every remaining iteration up to the abort threshold times out, the
`rtt` loop emits exactly those iteration records followed by the abort note
and stops, regardless of how many requested iterations remain. -/
theorem rttLoop_abort_general (oracle : Nat → CmdResult) (maxCT : Nat) :
    ∀ (rem i consec : Nat), consec < maxCT → maxCT - consec ≤ rem →
    (∀ m < maxCT - consec, (oracle (i + m)).timeout = true) →
    rttLoop oracle maxCT i rem consec =
      ((List.range (maxCT - consec)).map fun m =>
        mkEntry (i + m) (oracle (i + m))) ++ [.note (abortNote maxCT)] := by
  intro rem
  induction rem with
  | zero => intro i consec h1 h2 _; omega
  | succ rem ih =>
      intro i consec h1 h2 htm
      have ht0 : (oracle i).timeout = true := by
        have := htm 0 (by omega)
        simpa using this
      have hc2 : (if (oracle i).timeout = true then consec + 1 else 0) =
          consec + 1 := by simp [ht0]
      by_cases hstop : maxCT ≤ consec + 1
      · have hk : maxCT - consec = 1 := by omega
        simp only [rttLoop, hc2]
        rw [if_pos hstop, hk]
        have hmax : consec + 1 = maxCT := by omega
        simp [List.range_succ, hmax]
      · have hk : maxCT - consec = (maxCT - (consec + 1)) + 1 := by omega
        simp only [rttLoop, hc2]
        rw [if_neg hstop]
        rw [ih (i + 1) (consec + 1) (by omega) (by omega)
          (fun m hm => by
            have := htm (m + 1) (by omega)
            simpa [show i + (m + 1) = i + 1 + m by omega] using this)]
        rw [hk, List.range_succ_eq_map]
        simp only [List.map_cons, List.map_map, Nat.add_zero,
          List.cons_append]
        congr 2
        refine List.map_congr_left fun m _ => ?_
        simp only [Function.comp_apply]
        rw [show i + Nat.succ m = i + 1 + m by omega]

/-- A non-timeout iteration resets the consecutive-timeout counter of the
`rtt` loop to zero and the loop continues. -/
theorem rttLoop_reset_general (oracle : Nat → CmdResult)
    (maxCT i rem consec : Nat) (hmax : 1 ≤ maxCT)
    (hnt : (oracle i).timeout = false) :
    rttLoop oracle maxCT i (rem + 1) consec =
      mkEntry i (oracle i) :: rttLoop oracle maxCT (i + 1) rem 0 := by
  have hc2 : (if (oracle i).timeout = true then consec + 1 else 0) = 0 := by
    simp [hnt]
  simp only [rttLoop, hc2]
  rw [if_neg (by omega)]

/-- The throughput loop clock never runs backwards when iteration costs are
nonnegative. -/
theorem tpLoop_mono (oracle : Nat → CmdResult) (dur : Nat → ℚ) (endAt : ℚ)
    (maxCT : Nat) (hdur : ∀ i, (0 : ℚ) ≤ dur i) :
    ∀ (fuel q bytes consec : Nat) (now : ℚ) (res : Nat × Nat × ℚ),
    tpLoop oracle dur endAt maxCT fuel now q bytes consec = some res →
    now ≤ res.2.2 := by
  intro fuel
  induction fuel with
  | zero =>
      intro q bytes consec now res h
      simp only [tpLoop] at h
      by_cases hlt : now < endAt
      · rw [if_pos hlt] at h
        exact absurd h (by simp)
      · rw [if_neg hlt] at h
        cases h; exact le_refl _
  | succ fuel ih =>
      intro q bytes consec now res h
      simp only [tpLoop] at h
      by_cases hlt : now < endAt
      · rw [if_pos hlt] at h
        by_cases hstop :
            maxCT ≤ (if (oracle q).timeout = true then consec + 1 else 0)
        · rw [if_pos hstop] at h
          cases h
          have hle : now ≤ now + dur q := le_add_of_nonneg_right (hdur q)
          simpa using hle
        · rw [if_neg hstop] at h
          have hle : now ≤ now + dur q := le_add_of_nonneg_right (hdur q)
          exact le_trans hle (ih _ _ _ _ _ h)
      · rw [if_neg hlt] at h
        cases h; exact le_refl _

/-- When every remaining iteration up to the abort threshold times out and
the clock stays inside the budget meanwhile, the throughput loop counts
exactly those iterations, sums their bytes, and stops. -/
theorem tpLoop_abort_general (oracle : Nat → CmdResult) (dur : Nat → ℚ)
    (endAt : ℚ) (maxCT : Nat) :
    ∀ (k fuel q bytes consec : Nat) (now : ℚ),
    k = maxCT - consec → consec < maxCT → k ≤ fuel →
    (∀ m < k, (oracle (q + m)).timeout = true) →
    (∀ j < k, now + partialDur dur q j < endAt) →
    tpLoop oracle dur endAt maxCT fuel now q bytes consec =
      some (q + k,
        bytes + ((List.range k).map fun m => (oracle (q + m)).bytes).sum,
        now + partialDur dur q k) := by
  intro k
  induction k with
  | zero => intro fuel q bytes consec now hk h1 _ _ _; omega
  | succ k ih =>
      intro fuel q bytes consec now hk h1 hfuel htm htime
      obtain ⟨fuel, rfl⟩ : ∃ f, fuel = f + 1 := ⟨fuel - 1, by omega⟩
      have hnow : now < endAt := by
        have := htime 0 (by omega)
        simpa [partialDur] using this
      have ht0 : (oracle q).timeout = true := by
        have := htm 0 (by omega)
        simpa using this
      have hc2 : (if (oracle q).timeout = true then consec + 1 else 0) =
          consec + 1 := by simp [ht0]
      simp only [tpLoop, if_pos hnow, hc2]
      by_cases hstop : maxCT ≤ consec + 1
      · have hk0 : k = 0 := by omega
        rw [if_pos hstop]
        subst hk0
        simp [partialDur, List.range_succ]
      · rw [if_neg hstop]
        rw [ih fuel (q + 1) (bytes + (oracle q).bytes) (consec + 1)
          (now + dur q) (by omega) (by omega) (by omega)
          (fun m hm => by
            have := htm (m + 1) (by omega)
            simpa [show q + (m + 1) = q + 1 + m by omega] using this)
          (fun j hj => by
            have := htime (j + 1) (by omega)
            rw [partialDur_succ] at this
            linarith)]
        have hb : bytes + (oracle q).bytes +
            ((List.range k).map fun m => (oracle (q + 1 + m)).bytes).sum =
            bytes + ((List.range (k + 1)).map fun m => (oracle (q + m)).bytes).sum := by
          rw [mapRangeSum_succ (fun m => (oracle m).bytes) q k]
          omega
        have hd : now + dur q + partialDur dur (q + 1) k =
            now + partialDur dur q (k + 1) := by
          rw [partialDur_succ]
          ring
        rw [hb, hd, show q + 1 + k = q + (k + 1) by omega]

/-- A non-timeout iteration resets the consecutive-timeout counter of the
throughput loop to zero, and the loop continues with the clock advanced and
the iteration counted. -/
theorem tpLoop_reset_general (oracle : Nat → CmdResult) (dur : Nat → ℚ)
    (endAt : ℚ) (maxCT fuel q bytes consec : Nat) (now : ℚ)
    (hlt : now < endAt) (hmax : 1 ≤ maxCT)
    (hnt : (oracle q).timeout = false) :
    tpLoop oracle dur endAt maxCT (fuel + 1) now q bytes consec =
      tpLoop oracle dur endAt maxCT fuel (now + dur q) (q + 1)
        (bytes + (oracle q).bytes) 0 := by
  have hc2 : (if (oracle q).timeout = true then consec + 1 else 0) = 0 := by
    simp [hnt]
  simp only [tpLoop, if_pos hlt, hc2]
  rw [if_neg (by omega)]

/-- Counterexample to C4 as stated: a throughput run that hits 3 consecutive
timeouts with a 60-second budget and 10 ms iterations stops early after
exactly 3 queries and 0.15 s of a 60 s budget, yet its result carries only
the fixed informational `note` string — not an abort note; the throughput
response has no per-iteration sequence at all, and nothing in it records the
abort. -/
theorem tp_no_abort_note_counterexample :
    (tpRun (fun _ => ⟨[], none, 0, true, none⟩) (fun _ => 10) 60 3 100).map
        TpResult.queriesSent = some 3 ∧
    (tpRun (fun _ => ⟨[], none, 0, true, none⟩) (fun _ => 10) 60 3 100).map
        TpResult.durationMeasuredSec = some (3 / 20) ∧
    (3 / 20 : ℚ) < 60 ∧
    (tpRun (fun _ => ⟨[], none, 0, true, none⟩) (fun _ => 10) 60 3 100).map
        TpResult.note = some tpFixedNote ∧
    tpFixedNote ≠ abortNote 3 := by
  have hloop := tpLoop_abort_general (fun _ => ⟨[], none, 0, true, none⟩)
    (fun _ => 10) (60 * 1000) 3 3 100 0 0 0 (0 : ℚ) rfl (by decide)
    (by decide) (fun m _ => rfl)
    (fun j hj => by interval_cases j <;> norm_num [partialDur, List.range_succ])
  have hloop2 : tpLoop (fun _ => ⟨[], none, 0, true, none⟩) (fun _ => 10)
      (60 * 1000) 3 100 0 0 0 0 = some (3, 0, 30) := by
    rw [hloop]
    norm_num [partialDur, List.range_succ]
  have hrun : tpRun (fun _ => ⟨[], none, 0, true, none⟩) (fun _ => 10) 60 3 100 =
      some (tpStats 3 0 30) := by
    simp only [tpRun]
    rw [hloop2]
  refine ⟨?_, ?_, by norm_num, ?_, by decide⟩
  · rw [hrun]; rfl
  · rw [hrun]
    show some (tpStats 3 0 30).durationMeasuredSec = some (3 / 20)
    simp only [tpStats]
    rw [max_eq_right (by norm_num)]
    norm_num
  · rw [hrun]; rfl

/-- C4 amended: the consecutive-timeout abort policy, as the code implements
it.  (i) In latency (`rtt`) mode, once the pending iterations all time out
the loop records exactly `maxConsecutiveTimeouts` iteration records, appends
the human-readable abort note to the per-iteration sequence, and stops —
even when fewer than `count` iterations have run.  (ii) A non-timeout
iteration resets the consecutive counter to zero.  (iii) In throughput mode
the loop likewise stops after `maxConsecutiveTimeouts` consecutive timeouts
while the time budget remains, counting the iterations performed so far —
but it records no abort note (see `tp_no_abort_note_counterexample`).
(iv) A non-timeout iteration resets the throughput counter to zero as
well. -/
theorem consecutive_timeout_abort_policy :
    (∀ (oracle : Nat → CmdResult) (count maxCT : Nat),
        0 < maxCT → maxCT ≤ count →
        (∀ m < maxCT, (oracle m).timeout = true) →
        rttRun oracle count maxCT =
          ((List.range maxCT).map fun m => mkEntry m (oracle m)) ++
            [.note (abortNote maxCT)]) ∧
    (∀ (oracle : Nat → CmdResult) (maxCT i rem consec : Nat),
        1 ≤ maxCT → (oracle i).timeout = false →
        rttLoop oracle maxCT i (rem + 1) consec =
          mkEntry i (oracle i) :: rttLoop oracle maxCT (i + 1) rem 0) ∧
    (∀ (oracle : Nat → CmdResult) (dur : Nat → ℚ) (endAt : ℚ)
        (maxCT fuel : Nat),
        0 < maxCT → maxCT ≤ fuel →
        (∀ m < maxCT, (oracle m).timeout = true) →
        (∀ j < maxCT, partialDur dur 0 j < endAt) →
        tpLoop oracle dur endAt maxCT fuel 0 0 0 0 =
          some (maxCT,
            ((List.range maxCT).map fun m => (oracle m).bytes).sum,
            partialDur dur 0 maxCT)) ∧
    (∀ (oracle : Nat → CmdResult) (dur : Nat → ℚ) (endAt : ℚ)
        (maxCT fuel q bytes consec : Nat) (now : ℚ),
        now < endAt → 1 ≤ maxCT → (oracle q).timeout = false →
        tpLoop oracle dur endAt maxCT (fuel + 1) now q bytes consec =
          tpLoop oracle dur endAt maxCT fuel (now + dur q) (q + 1)
            (bytes + (oracle q).bytes) 0) := by
  refine ⟨?_, rttLoop_reset_general, ?_, tpLoop_reset_general⟩
  · intro oracle count maxCT h1 h2 htm
    have h := rttLoop_abort_general oracle maxCT count 0 0 (by omega)
      (by omega) (fun m hm => by simpa using htm m (by omega))
    simpa [rttRun] using h
  · intro oracle dur endAt maxCT fuel h1 h2 htm htime
    have h := tpLoop_abort_general oracle dur endAt maxCT maxCT fuel 0 0 0
      (0 : ℚ) (by omega) (by omega) (by omega)
      (fun m hm => by simpa using htm m (by omega))
      (fun j hj => by simpa using htime j (by omega))
    simpa using h

/-- Concrete instantiation of `consecutive_timeout_abort_policy`: all four
parts applied at small explicit runs. -/
theorem consecutive_timeout_abort_policy_witness :
    rttRun (fun _ => ⟨[], none, 0, true, none⟩) 5 3 =
      ((List.range 3).map fun m =>
        mkEntry m ((fun _ => (⟨[], none, 0, true, none⟩ : CmdResult)) m)) ++
        [.note (abortNote 3)] ∧
    rttLoop (fun _ => ⟨"1.0".toList, some 5, 4, false, none⟩) 3 0 (4 + 1) 2 =
      mkEntry 0 ((fun _ => (⟨"1.0".toList, some 5, 4, false, none⟩ : CmdResult)) 0) ::
        rttLoop (fun _ => ⟨"1.0".toList, some 5, 4, false, none⟩) 3 1 4 0 ∧
    tpLoop (fun _ => ⟨[], none, 0, true, none⟩) (fun _ => 10) 60000 3 100 0 0 0 0 =
      some (3, ((List.range 3).map fun m =>
        ((fun _ => (⟨[], none, 0, true, none⟩ : CmdResult)) m).bytes).sum,
        partialDur (fun _ => 10) 0 3) ∧
    tpLoop (fun _ => ⟨"1.0".toList, some 5, 4, false, none⟩) (fun _ => 10)
        1000 5 (2 + 1) 0 0 0 0 =
      tpLoop (fun _ => ⟨"1.0".toList, some 5, 4, false, none⟩) (fun _ => 10)
        1000 5 2 ((0 : ℚ) + 10) (0 + 1) (0 + 4) 0 := by
  refine ⟨?_, ?_, ?_, ?_⟩
  · exact consecutive_timeout_abort_policy.1
      (fun _ => ⟨[], none, 0, true, none⟩) 5 3 (by decide) (by decide)
      (fun m _ => rfl)
  · exact consecutive_timeout_abort_policy.2.1
      (fun _ => ⟨"1.0".toList, some 5, 4, false, none⟩) 3 0 4 2 (by decide) rfl
  · exact consecutive_timeout_abort_policy.2.2.1
      (fun _ => ⟨[], none, 0, true, none⟩) (fun _ => 10) 60000 3 100
      (by decide) (by decide) (fun m _ => rfl)
      (fun j hj => by
        interval_cases j <;> norm_num [partialDur, List.range_succ])
  · exact consecutive_timeout_abort_policy.2.2.2
      (fun _ => ⟨"1.0".toList, some 5, 4, false, none⟩) (fun _ => 10)
      1000 5 2 0 0 0 0 (by norm_num) (by decide) rfl

/-- C7: for a throughput run whose loop completed, the reported
`durationMeasuredSec` is the actual elapsed wall-clock time — the loop's
final clock plus the 120 ms grace pause, in seconds, not the requested
`durationSec` — and `mb_per_s` and `ops_per_sec` are the recorded
`total_bytes / 1048576` and `queriesSent` divided by that measured
duration. -/
theorem tp_stats_formulas (oracle : Nat → CmdResult) (dur : Nat → ℚ)
    (durationSec : ℚ) (maxCT fuel q b : Nat) (fin : ℚ)
    (hdur : ∀ i, (0 : ℚ) ≤ dur i)
    (hloop : tpLoop oracle dur (durationSec * 1000) maxCT fuel 0 0 0 0 =
      some (q, b, fin)) :
    tpRun oracle dur durationSec maxCT fuel = some (tpStats q b fin) ∧
    (tpStats q b fin).durationMeasuredSec = (fin + 120) / 1000 ∧
    (tpStats q b fin).mb_per_s =
      (((tpStats q b fin).total_bytes : ℚ) / 1048576) /
        (tpStats q b fin).durationMeasuredSec ∧
    (tpStats q b fin).ops_per_sec =
      (((tpStats q b fin).queriesSent : ℚ)) /
        (tpStats q b fin).durationMeasuredSec := by
  have hfin : (0 : ℚ) ≤ fin := by
    have := tpLoop_mono oracle dur (durationSec * 1000) maxCT hdur fuel
      0 0 0 (0 : ℚ) (q, b, fin) hloop
    simpa using this
  have hmax : max (1 / 1000 : ℚ) ((fin + 120) / 1000) = (fin + 120) / 1000 :=
    max_eq_right (by linarith)
  refine ⟨?_, ?_, ?_, ?_⟩
  · simp only [tpRun]
    rw [hloop]
  · exact hmax
  · simp only [tpStats]
    norm_num
  · simp only [tpStats]

/-- Concrete instantiation of `tp_stats_formulas`: a 1-second budget with
600 ms iterations runs 2 queries over 1200 ms of loop time; the measured
duration is 1.32 s, not the requested 1 s. -/
theorem tp_stats_formulas_witness :
    tpRun (fun _ => ⟨"1.0".toList, some 5, 4, false, none⟩) (fun _ => 600)
        1 5 3 = some (tpStats 2 8 1200) ∧
    (tpStats 2 8 1200).durationMeasuredSec = (1200 + 120) / 1000 ∧
    (tpStats 2 8 1200).durationMeasuredSec ≠ 1 := by
  have h := tp_stats_formulas (fun _ => ⟨"1.0".toList, some 5, 4, false, none⟩)
    (fun _ => 600) 1 5 3 2 8 1200 (fun _ => by norm_num)
    (by norm_num [tpLoop])
  refine ⟨h.1, h.2.1, ?_⟩
  rw [h.2.1]
  norm_num

/-- Counterexample to C3 as stated: with the gate held (`tcpBusy = true`),
a reply-expecting `POST /send` is not rejected as busy — it runs a full
correlation on the connection and returns its reply, never having read or
toggled the gate. -/
theorem send_route_ignores_gate_counterexample :
    sendHandler ⟨true, true⟩ true "MEAS:VOLT?".toList
        [(5, .data "1.0\n".toList)] =
      (.sendReply "1.0".toList (some 5) 4 false none, ⟨true, true⟩) ∧
    (sendHandler ⟨true, true⟩ true "MEAS:VOLT?".toList
        [(5, .data "1.0\n".toList)]).1 ≠ HResp.errBusy := by
  decide

/-- C3 amended: the `tcpBusy` gate is consulted and toggled by the measure
endpoints and by both speedtest modes — with the gate held they reject
immediately as the distinct busy condition, before any correlation — but
`POST /send` never reads the gate: its response is the same whether or not
the gate is held, and its reply-expecting path runs a correlation without
acquiring it. -/
theorem gate_busy_coverage (st : SrvState) (trace : List (Nat × SockEv))
    (oracle : Nat → CmdResult) (dur : Nat → ℚ) (durationSec : ℚ)
    (count maxCT fuel : Nat) (e : Bool) (d : JStr)
    (hc : st.connected = true) (hb : st.busy = true) :
    measureVoltHandler st trace = (.errBusy, st) ∧
    speedtestRttHandler st oracle count maxCT = (.errBusy, st) ∧
    speedtestTpHandler st oracle dur durationSec maxCT fuel = (.errBusy, st) ∧
    (sendHandler st e d trace).1 =
      (sendHandler ⟨st.connected, false⟩ e d trace).1 := by
  obtain ⟨c, b⟩ := st
  simp only at hc hb
  subst hc
  subst hb
  refine ⟨?_, ?_, ?_, ?_⟩
  · simp [measureVoltHandler]
  · simp [speedtestRttHandler]
  · simp [speedtestTpHandler]
  · simp only [sendHandler]
    cases e
    · simp
    · cases h : sendCommandOnceOnSocket trace <;> simp [h]

/-- Concrete instantiation of `gate_busy_coverage` at a held gate. -/
theorem gate_busy_coverage_witness :
    measureVoltHandler ⟨true, true⟩ [(5, .data "1.0\n".toList)] =
      (.errBusy, ⟨true, true⟩) ∧
    speedtestRttHandler ⟨true, true⟩
        (fun _ => ⟨"1.0".toList, some 5, 4, false, none⟩) 10 5 =
      (.errBusy, ⟨true, true⟩) ∧
    speedtestTpHandler ⟨true, true⟩
        (fun _ => ⟨"1.0".toList, some 5, 4, false, none⟩) (fun _ => 10)
        5 5 100 =
      (.errBusy, ⟨true, true⟩) ∧
    (sendHandler ⟨true, true⟩ true "MEAS:VOLT?".toList
        [(5, .data "1.0\n".toList)]).1 =
      (sendHandler ⟨true, false⟩ true "MEAS:VOLT?".toList
        [(5, .data "1.0\n".toList)]).1 :=
  gate_busy_coverage ⟨true, true⟩ [(5, .data "1.0\n".toList)]
    (fun _ => ⟨"1.0".toList, some 5, 4, false, none⟩) (fun _ => 10) 5
    10 5 100 true "MEAS:VOLT?".toList rfl rfl

/-- Counterexample to C8 as stated: a non-numeric truthy `count` such as the
string "abc" makes `parseInt` return `NaN`, which `Math.max(1, ·)`
propagates, so the latency loop performs zero iterations — below the
claimed floor of 1; the same happens to `durationSec` through
`Number(body.duration)`. -/
theorem config_count_nan_counterexample :
    effCount (.str "abc".toList) = none ∧
    rttIterations (effCount (.str "abc".toList)) = 0 ∧
    effDuration (.str "abc".toList) = none ∧
    ¬ (1 ≤ rttIterations (effCount (.str "abc".toList))) := by
  decide

/-- C8 amended: the guarded options always meet their floors —
`perCmdTimeoutMs` (default 3000) is at least 100, `minDelayMs` (default 10)
at least 0, `maxConsecutiveTimeouts` (default 5) at least 1, for every body
value, because `Number.isFinite` rejects every non-number before the floor
is applied — and `count` (default 10) and `durationSec` (default 5) meet
their floors of 1 whenever their effective value is a number at all; but a
non-numeric truthy body value drives `count`/`durationSec` to `NaN` (see
`config_count_nan_counterexample`), in which case no floor applies and the
run performs zero iterations. -/
theorem config_floors :
    (∀ v, 100 ≤ effPerCmdTimeout v) ∧ effPerCmdTimeout .undef = 3000 ∧
    (∀ v, 0 ≤ effMinDelay v) ∧ effMinDelay .undef = 10 ∧
    (∀ v, 1 ≤ effMaxCT v) ∧ effMaxCT .undef = 5 ∧
    (∀ v n, effCount v = some n → 1 ≤ n) ∧ effCount .undef = some 10 ∧
    (∀ v q, effDuration v = some q → 1 ≤ q) ∧
    effDuration .undef = some 5 := by
  refine ⟨?_, rfl, ?_, rfl, ?_, rfl, ?_, ?_, ?_, ?_⟩
  · intro v
    cases v <;>
      first
        | exact le_max_left _ _
        | norm_num [effPerCmdTimeout, isFiniteNum]
  · intro v
    cases v <;>
      first
        | exact le_max_left _ _
        | norm_num [effMinDelay, isFiniteNum]
  · intro v
    cases v <;>
      first
        | exact le_max_left _ _
        | norm_num [effMaxCT, isFiniteNum]
  · intro v n h
    rcases hj : jsParseInt (if v.truthy then v else .num 10) with _ | m
    · simp [effCount, hj] at h
    · simp only [effCount, hj] at h
      cases h
      exact le_max_left _ _
  · simp only [effCount, JVal.truthy, jsParseInt]
    norm_num [Rat.num_ofNat, Rat.den_ofNat]
  · intro v q h
    rcases hj : jsNumber (if v.truthy then v else .num 5) with _ | m
    · simp [effDuration, hj] at h
    · simp only [effDuration, hj] at h
      cases h
      exact le_max_left _ _
  · simp only [effDuration, JVal.truthy, jsNumber]
    norm_num

/-- Concrete instantiation of `config_floors`: the floors hold at sample
numeric and absent body values. -/
theorem config_floors_witness :
    100 ≤ effPerCmdTimeout (.num 7) ∧
    0 ≤ effMinDelay (.num (-3)) ∧
    1 ≤ effMaxCT (.num 0) ∧
    (effCount (.num 3) = some 3 ∧ (1 : Int) ≤ 3) ∧
    (effDuration (.num (1 / 2)) = some 1 ∧ (1 : ℚ) ≤ 1) := by
  have hcount : effCount (.num 3) = some 3 := by
    simp only [effCount, JVal.truthy, jsParseInt]
    norm_num [Rat.num_ofNat, Rat.den_ofNat]
  have hdur : effDuration (.num (1 / 2)) = some 1 := by
    simp only [effDuration, JVal.truthy, jsNumber]
    norm_num
  refine ⟨config_floors.1 _, config_floors.2.2.1 _, config_floors.2.2.2.2.1 _,
    ⟨hcount, ?_⟩, ⟨hdur, ?_⟩⟩
  · have := config_floors.2.2.2.2.2.2.1 (.num 3) 3 hcount
    exact this
  · have := config_floors.2.2.2.2.2.2.2.2.1 (.num (1 / 2)) 1 hdur
    exact this

/-- C9: the measurement endpoint parses the raw reply with `Number`; a
finite parse yields the numeric value, a failed parse yields the raw string
unchanged in an ordinary success response — no error is raised either way.
In particular raw "3.301" parses to 3.301 and raw "ERR" does not parse. -/
theorem measure_parse_fallback (st : SrvState) (trace : List (Nat × SockEv))
    (r : CmdResult) (hc : st.connected = true) (hb : st.busy = false)
    (hr : sendCommandOnceOnSocket trace = some r) (ht : r.timeout = false) :
    (∀ q, jsNumberStr r.raw = some q →
        measureVoltHandler st trace =
          (.measureOk "volt".toList r.raw (Sum.inl q) r.rtt_ms r.bytes, st)) ∧
    (jsNumberStr r.raw = none →
        measureVoltHandler st trace =
          (.measureOk "volt".toList r.raw (Sum.inr r.raw) r.rtt_ms r.bytes, st)) ∧
    jsNumberStr "3.301".toList = some (3301 / 1000) ∧
    jsNumberStr "ERR".toList = none := by
  obtain ⟨c, b⟩ := st
  simp only at hc hb
  subst hc
  subst hb
  refine ⟨?_, ?_, ?_, by decide⟩
  · intro q hq
    simp [measureVoltHandler, hr, ht, numOrRaw, hq]
  · intro hq
    simp [measureVoltHandler, hr, ht, numOrRaw, hq]
  · have hp : jsNumberParse "3.301".toList = some ⟨false, 3, 301, 3, 0⟩ := by
      decide
    simp only [jsNumberStr, hp, Option.map_some']
    norm_num [DecParse.val]

/-- Concrete instantiation of `measure_parse_fallback`: a reply of
"3.301\n" yields the numeric value 3.301, a reply of "ERR\n" yields the raw
string "ERR" in a success response. -/
theorem measure_parse_fallback_witness :
    measureVoltHandler ⟨true, false⟩ [(5, .data "3.301\n".toList)] =
      (.measureOk "volt".toList "3.301".toList (Sum.inl (3301 / 1000))
        (some 5) 6, ⟨true, false⟩) ∧
    measureVoltHandler ⟨true, false⟩ [(7, .data "ERR\n".toList)] =
      (.measureOk "volt".toList "ERR".toList (Sum.inr "ERR".toList)
        (some 7) 4, ⟨true, false⟩) := by
  constructor
  · exact (measure_parse_fallback ⟨true, false⟩ [(5, .data "3.301\n".toList)]
      ⟨"3.301".toList, some 5, 6, false, none⟩ rfl rfl (by decide) rfl).1
      (3301 / 1000)
      (measure_parse_fallback ⟨true, false⟩ [(5, .data "3.301\n".toList)]
        ⟨"3.301".toList, some 5, 6, false, none⟩ rfl rfl (by decide) rfl).2.2.1
  · exact (measure_parse_fallback ⟨true, false⟩ [(7, .data "ERR\n".toList)]
      ⟨"ERR".toList, some 7, 4, false, none⟩ rfl rfl (by decide) rfl).2.1
      (by decide)

/-- C10: a correlation terminated by a socket error, a socket close, or a
write failure resolves with a numeric `rtt_ms` (the elapsed time at the
event) and `timeout` unset, carrying only an `error` message; consequently
the latency-mode success filter `!x.timeout && typeof x.rtt_ms === 'number'`
keeps such errored iterations, and they enter `avg`/`min`/`max` — a run
consisting of one errored iteration has `avg_ms` equal to its rtt. -/
theorem errored_iterations_counted_as_successes :
    (∀ (pre : List (Nat × SockEv)) (t : Nat) (msg : JStr)
        (post : List (Nat × SockEv)), (runCall pre).finished = false →
      sendCommandOnceOnSocket (pre ++ (t, .sockError msg) :: post) =
        some ⟨jsTrim (runCall pre).buffer, some t,
          utf8Len (runCall pre).buffer, false, some msg⟩) ∧
    (∀ (pre : List (Nat × SockEv)) (t : Nat)
        (post : List (Nat × SockEv)), (runCall pre).finished = false →
      sendCommandOnceOnSocket (pre ++ (t, .close) :: post) =
        some ⟨jsTrim (runCall pre).buffer, some t,
          utf8Len (runCall pre).buffer, false, some "socket closed".toList⟩) ∧
    (∀ (pre : List (Nat × SockEv)) (t : Nat) (msg : JStr)
        (post : List (Nat × SockEv)), (runCall pre).finished = false →
      sendCommandOnceOnSocket (pre ++ (t, .writeErr msg) :: post) =
        some ⟨jsTrim (runCall pre).buffer, some t,
          utf8Len (runCall pre).buffer, false, some msg⟩) ∧
    (∀ (l1 l2 : List Entry) (i : Nat) (raw : JStr) (t b : Nat)
        (msg : Option JStr),
      successesOf (l1 ++ Entry.iter i raw (some t) b false msg :: l2) =
        successesOf l1 ++ Entry.iter i raw (some t) b false msg ::
          successesOf l2) ∧
    (∀ (i : Nat) (raw : JStr) (t b : Nat) (msg : Option JStr),
      avgOf [Entry.iter i raw (some t) b false msg] = some t) := by
  refine ⟨?_, ?_, ?_, ?_, ?_⟩
  · intro pre t msg post hf
    have hfin : (step (runCall pre) (t, .sockError msg)).finished = true := by
      simp [step, hf]
    have key : runCall (pre ++ (t, .sockError msg) :: post) =
        step (runCall pre) (t, .sockError msg) := by
      rw [runCall, List.foldl_append, List.foldl_cons]
      exact foldl_step_of_finished post _ hfin
    simp only [sendCommandOnceOnSocket, key]
    simp [step, hf]
  · intro pre t post hf
    have hfin : (step (runCall pre) (t, .close)).finished = true := by
      simp [step, hf]
    have key : runCall (pre ++ (t, .close) :: post) =
        step (runCall pre) (t, .close) := by
      rw [runCall, List.foldl_append, List.foldl_cons]
      exact foldl_step_of_finished post _ hfin
    simp only [sendCommandOnceOnSocket, key]
    simp [step, hf]
  · intro pre t msg post hf
    have hfin : (step (runCall pre) (t, .writeErr msg)).finished = true := by
      simp [step, hf]
    have key : runCall (pre ++ (t, .writeErr msg) :: post) =
        step (runCall pre) (t, .writeErr msg) := by
      rw [runCall, List.foldl_append, List.foldl_cons]
      exact foldl_step_of_finished post _ hfin
    simp only [sendCommandOnceOnSocket, key]
    simp [step, hf]
  · intro l1 l2 i raw t b msg
    simp [successesOf, List.filter_append, List.filter_cons, isSuccess,
      Entry.timeoutF, Entry.rttF]
  · intro i raw t b msg
    simp [avgOf, successesOf, rttValsOf, isSuccess, Entry.timeoutF,
      Entry.rttF, Entry.bytesF]

/-- Concrete instantiation of `errored_iterations_counted_as_successes`: a
socket error after a partial chunk resolves with `rtt_ms = 9` and no
timeout, and a lone errored iteration with rtt 6 gives `avg_ms = 6`. -/
theorem errored_iterations_counted_as_successes_witness :
    sendCommandOnceOnSocket
        ([(1, .data "1.".toList)] ++ (9, .sockError "boom".toList) ::
          [(3000, .timerFire)]) =
      some ⟨"1.".toList, some 9, 2, false, some "boom".toList⟩ ∧
    avgOf [Entry.iter 1 [] (some 6) 0 false (some "socket closed".toList)] =
      some 6 := by
  constructor
  · have h := errored_iterations_counted_as_successes.1
      [(1, .data "1.".toList)] 9 "boom".toList [(3000, .timerFire)]
      (by decide)
    simpa using h
  · exact errored_iterations_counted_as_successes.2.2.2.2 1 [] 6 0
      (some "socket closed".toList)

end DfpAtp
